import Mathlib

/-
Verification of the katdal chunk-store layer.

Sources embedded here:
  * src/katdal/chunkstore_npy.py   (NpyFileChunkStore)
  * src/katdal/chunkstore_rados.py (RadosChunkStore)
The common base module `katdal/chunkstore.py` (class ChunkStore with
`chunk_name`, `chunk_metadata`, `_standard_errors`, and the error classes
StoreUnavailable / ChunkNotFound) is not part of the source tree; those
pieces are modelled from the specification (spec sections 3, 4.1, 4.2)
and from the behaviour pinned down by src/katdal/test/test_chunkstore.py.

Python strings are modelled as lists of characters (`PyStr`), numpy
arrays as a shape, a dtype and a flat list of bytes, and the filesystem
and the RADOS object pool as association lists.
-/

namespace Katdal

/-- Python strings are modelled as lists of characters. -/
abbrev PyStr := List Char

/-- Convert a Lean string literal to the character-list model. -/
def str (s : String) : PyStr := s.data

/-- Element dtypes: a few representative fixed-size numeric dtypes plus the
variable-sized / reference-like `object` dtype that the validator rejects. -/
inductive Dtype where
  | float64
  | int64
  | uint8
  | objectD
deriving DecidableEq, Repr

/-- Size in bytes of one element (`numpy.dtype.itemsize`). -/
def Dtype.itemsize : Dtype → Nat
  | .float64 => 8
  | .int64 => 8
  | .uint8 => 1
  | .objectD => 8

/-- Whether the dtype is the variable-sized / reference-like object dtype. -/
def Dtype.isObject : Dtype → Bool
  | .objectD => true
  | _ => false

/-- A numpy ndarray: shape, dtype, and its flat buffer of bytes
(most-significant structure only; element encoding is opaque bytes). -/
structure NdArray where
  shape : List Nat
  dtype : Dtype
  data : List Nat
deriving DecidableEq, Repr

/-- Product of a shape, as `numpy.prod`. -/
def prodShape (shape : List Nat) : Nat := shape.foldl (· * ·) 1

/-- An ndarray is well formed when its buffer holds exactly
`prod(shape) * itemsize` bytes, as every real numpy array does. -/
def NdArray.wf (a : NdArray) : Prop :=
  a.data.length = prodShape a.shape * a.dtype.itemsize

/-- The buffer of raw bytes of a chunk (`ndarray.tobytes`). -/
def NdArray.tobytes (a : NdArray) : List Nat := a.data

/-- A Python `slice(start, stop, step)` object; each field may be None. -/
structure PySlice where
  start : Option Nat
  stop : Option Nat
  step : Option Nat
deriving DecidableEq, Repr

/-- One element of a slice specification as passed by a caller: either a
proper slice object or a bare scalar index (which the validator rejects). -/
inductive SliceElem where
  | slc (s : PySlice)
  | scalar (i : Nat)
deriving DecidableEq, Repr

/-- Shorthand for the unit-stride slice `slice(a, b)`. -/
def slc (a b : Nat) : SliceElem := .slc ⟨some a, some b, none⟩

/-- Exceptions observable in this layer.  `valueError` is the
`MalformedRequest` kind of the spec (ValueError in the code);
`storeUnavailable` and `chunkNotFound` are the standardized kinds;
`ioError`, `radosTimedOut`, `radosObjectNotFound` and `typeError` are
backend-native exceptions. -/
inductive Exc where
  | valueError (msg : PyStr)
  | storeUnavailable (msg : PyStr)
  | chunkNotFound (msg : PyStr)
  | ioError (msg : PyStr)
  | radosTimedOut
  | radosObjectNotFound
  | typeError (msg : PyStr)
deriving DecidableEq, Repr

/-- Decidable equality of call outcomes, so that concrete runs of the
model can be checked by evaluation. -/
instance {ε α : Type} [DecidableEq ε] [DecidableEq α] : DecidableEq (Except ε α) :=
  fun a b =>
    match a, b with
    | .ok x, .ok y =>
      if h : x = y then .isTrue (by rw [h])
      else .isFalse (fun hh => h (Except.ok.inj hh))
    | .error x, .error y =>
      if h : x = y then .isTrue (by rw [h])
      else .isFalse (fun hh => h (Except.error.inj hh))
    | .ok _, .error _ => .isFalse (fun hh => Except.noConfusion hh)
    | .error _, .ok _ => .isFalse (fun hh => Except.noConfusion hh)

/-- Modelled from the spec: input validation of `deriveChunkKey` /
`deriveChunkMetadata` (spec 4.1, and test_chunkstore.test_metadata_validation):
the slice specification must be a non-empty sequence whose every element is a
range descriptor with concrete start and stop and unit step (a missing step
means step 1); a bare scalar, a missing start/stop, or a step other than 1
raises ValueError.  Returns the validated (start, stop) pairs. -/
def validateElem : SliceElem → Except Exc (Nat × Nat)
  | .scalar _ => .error (.valueError (str "bare index is not a slice"))
  | .slc s =>
    match s.start, s.stop with
    | some a, some b =>
      match s.step with
      | none => .ok (a, b)
      | some 1 => .ok (a, b)
      | some _ => .error (.valueError (str "slice step must be 1"))
    | _, _ => .error (.valueError (str "slice needs explicit start and stop"))

/-- Validate every element of a slice specification in order, collecting
the (start, stop) pairs and raising the first validation error. -/
def validateElems : List SliceElem → Except Exc (List (Nat × Nat))
  | [] => .ok []
  | e :: rest => do
    let p ← validateElem e
    let ps ← validateElems rest
    pure (p :: ps)

/-- Full validation of a slice specification: it must be non-empty and
every element must pass `validateElem`. -/
def validateSlices (slices : List SliceElem) : Except Exc (List (Nat × Nat)) :=
  if slices.isEmpty then .error (.valueError (str "invalid slice specification"))
  else validateElems slices

/-- Decimal digit character for d < 10. -/
def digitChar (d : Nat) : Char := Char.ofNat (48 + d)

/-- Fuel-indexed rendering of the decimal digits of a natural number,
most significant first; any fuel above the number is enough. -/
def natDigitsAux (fuel n : Nat) : List Char :=
  match fuel with
  | 0 => []
  | fuel + 1 =>
    if n < 10 then [digitChar n]
    else natDigitsAux fuel (n / 10) ++ [digitChar (n % 10)]

/-- Decimal digits of a natural number, most significant first
(the rendering used by the %d format). -/
def natDigits (n : Nat) : List Char := natDigitsAux (n + 1) n

/-- Modelled from the spec: zero padding of a start offset to a fixed
width, as the %05d format of the index string (spec section 3: start
offsets are zero-padded to a fixed width; docstring example 00001_00512). -/
def zeroPad (w n : Nat) : List Char :=
  List.replicate (w - (natDigits n).length) '0' ++ natDigits n

/-- Fixed zero-padding width of index components (five digits, as in the
docstring example 00001_00512). -/
def NPAD : Nat := 5

/-- Python `'_'.join` on the character-list model. -/
def joinUnderscore : List PyStr → PyStr
  | [] => []
  | [x] => x
  | x :: y :: ys => x ++ '_' :: joinUnderscore (y :: ys)

/-- Index string of a chunk: per-dimension start offsets, each zero padded,
joined by underscores (spec section 3 and section 6). -/
def indexOfStarts (starts : List Nat) : PyStr :=
  joinUnderscore (starts.map (zeroPad NPAD))

/-- Modelled from the spec: `ChunkStore.chunk_name` = deriveChunkKey
(spec 4.1).  Validates the slice specification (unit steps, proper range
descriptors) and returns the canonical chunk key
`<array_name>/<zero-padded start offsets joined by underscores>`;
no I/O side effects. -/
def chunk_name (array_name : PyStr) (slices : List SliceElem) : Except Exc PyStr := do
  let ss ← validateSlices slices
  pure (array_name ++ '/' :: indexOfStarts (ss.map Prod.fst))

/-- Modelled from the spec: `ChunkStore.chunk_metadata` = deriveChunkMetadata
(spec 4.1), the single validation choke point.  Computes the shape
(stop - start per dimension) from the validated slice specification; if a
chunk payload is supplied its shape must equal the derived shape and its
dtype must not be object-like (and must match an explicitly supplied dtype);
if only a dtype is supplied it must not be object-like.  Returns the chunk
key and the derived shape. -/
def chunk_metadata (array_name : PyStr) (slices : List SliceElem)
    (chunk : Option NdArray) (dtype : Option Dtype) :
    Except Exc (PyStr × List Nat) := do
  let ss ← validateSlices slices
  let shape := ss.map fun p => p.2 - p.1
  match chunk with
  | some c =>
    if c.shape ≠ shape then
      throw (.valueError (str "chunk shape differs from slice specification"))
    else if c.dtype.isObject then
      throw (.valueError (str "unsupported dtype"))
    else
      match dtype with
      | some d =>
        if d ≠ c.dtype then throw (.valueError (str "dtype mismatch"))
        else pure ()
      | none => pure ()
  | none =>
    match dtype with
    | some d =>
      if d.isObject then throw (.valueError (str "unsupported dtype"))
      else pure ()
    | none => pure ()
  pure (array_name ++ '/' :: indexOfStarts (ss.map Prod.fst), shape)

/-! ### Filesystem model and the NPY backend (src/katdal/chunkstore_npy.py) -/

/-- The filesystem: the set of existing directories and a map from file
paths to stored NPY files.  An NPY file is self describing, so it stores a
whole ndarray (shape, dtype and data). -/
structure FS where
  dirs : List PyStr
  files : List (PyStr × NdArray)
deriving DecidableEq, Repr

/-- `os.path.isdir`. -/
def isdir (fs : FS) (p : PyStr) : Bool := fs.dirs.contains p

/-- `os.path.join` for one extra component, as posixpath.join: an
absolute tail (one starting with the separator) discards the head
entirely; otherwise the tail is appended to the head, inserting a
separator unless the head is empty or already ends with one. -/
def osPathJoin (a b : PyStr) : PyStr :=
  if b.head? = some '/' then b
  else if a = [] then b
  else if a.getLast? = some '/' then a ++ b
  else a ++ '/' :: b

/-- `os.path.split`: split a path at its last separator; trailing
separators are stripped from the head unless the head consists only of
separators. -/
def osPathSplit (p : PyStr) : PyStr × PyStr :=
  let r := p.reverse
  let tail := (r.takeWhile (· ≠ '/')).reverse
  let headR := r.dropWhile (· ≠ '/')
  let headStripped := headR.dropWhile (· = '/')
  (if headStripped = [] then headR.reverse else headStripped.reverse, tail)

/-- All proper slash-delimited prefixes of a path (the intermediate
directories `os.makedirs` creates below the leaf). -/
def properDirPrefixes (p : PyStr) : List PyStr :=
  (List.range p.length).filterMap fun i =>
    if p.get? i = some '/' then some (p.take i) else none

/-- `os.makedirs`: create the directory and any missing intermediate
directories along the path. -/
def makedirs (fs : FS) (p : PyStr) : FS :=
  { fs with dirs := p :: properDirPrefixes p ++ fs.dirs }

/-- `numpy.load` of an NPY file: return the self-described array stored
at the path, or raise the native IOError when the file does not exist. -/
def npLoad (fs : FS) (filename : PyStr) : Except Exc NdArray :=
  match fs.files.lookup filename with
  | some a => .ok a
  | none => .error (.ioError filename)

/-- `numpy.save`: write (or overwrite) the NPY file at the path. -/
def npSave (fs : FS) (filename : PyStr) (chunk : NdArray) : FS :=
  { fs with files := (filename, chunk) :: fs.files.filter (fun kv => kv.1 ≠ filename) }

/-- The state of an `NpyFileChunkStore`: just the root path.  The
constructor installs no error map and the class never uses the scoped
error translator. -/
structure NpyStore where
  path : PyStr
deriving DecidableEq, Repr

/-- `NpyFileChunkStore.__init__`: raise the native IOError when the root
path is not an existing directory, otherwise record the path.  The
filesystem is returned unchanged: construction performs no I/O beyond the
existence check. -/
def npyInit (fs : FS) (path : PyStr) : Except Exc NpyStore × FS :=
  (if isdir fs path then .ok ⟨path⟩ else .error (.ioError path), fs)

/-- `NpyFileChunkStore.get`: derive the chunk name, join it to the store
path with the fixed `.npy` extension, and load the file.  The dtype
argument is ignored (the NPY file is self describing); no error
translation is performed. -/
def npyGet (store : NpyStore) (fs : FS) (array_name : PyStr)
    (slices : List SliceElem) (_dtype : Option Dtype) : Except Exc NdArray := do
  let cname ← chunk_name array_name slices
  let filename := osPathJoin store.path cname ++ str ".npy"
  npLoad fs filename

/-- `NpyFileChunkStore.put`: derive the chunk name (the payload itself is
not validated), build the filename, create the containing directory if it
is missing, and save the file.  Returns the new filesystem. -/
def npyPut (store : NpyStore) (fs : FS) (array_name : PyStr)
    (slices : List SliceElem) (chunk : NdArray) : Except Exc FS := do
  let cname ← chunk_name array_name slices
  let filename := osPathJoin store.path cname ++ str ".npy"
  let dirname := (osPathSplit filename).1
  let fs := if isdir fs dirname then fs else makedirs fs dirname
  pure (npSave fs filename chunk)

/-! ### Error taxonomy mechanism and the RADOS backend
    (src/katdal/chunkstore_rados.py) -/

/-- The two native RADOS exception types that appear in the error map. -/
inductive RadosExc where
  | timedOut
  | objectNotFound
deriving DecidableEq, Repr

/-- The native RADOS exceptions as members of the exception model. -/
def RadosExc.toExc : RadosExc → Exc
  | .timedOut => .radosTimedOut
  | .objectNotFound => .radosObjectNotFound

/-- A standardized failure kind an error map can translate to. -/
inductive StdKind where
  | storeUnavailable
  | chunkNotFound
deriving DecidableEq, Repr

/-- Build the standardized exception of a kind, carrying the offending
chunk key for diagnostics. -/
def StdKind.toExc : StdKind → PyStr → Exc
  | .storeUnavailable, key => .storeUnavailable key
  | .chunkNotFound, key => .chunkNotFound key

/-- The per-store error map of the RADOS backend: which standardized kind
each native RADOS exception type is translated to (None = untranslated). -/
structure ErrorMap where
  timedOut : Option StdKind
  objectNotFound : Option StdKind
deriving DecidableEq, Repr

/-- Modelled from the spec: translation of a single raised exception by
the scoped helper `_standard_errors` (spec 4.2): a native failure whose
type has an entry in the error map is re-raised as the mapped
standardized kind carrying the chunk key; anything else propagates
unchanged. -/
def translateExc (em : ErrorMap) (key : PyStr) : Exc → Exc
  | .radosTimedOut =>
    match em.timedOut with
    | some k => k.toExc key
    | none => .radosTimedOut
  | .radosObjectNotFound =>
    match em.objectNotFound with
    | some k => k.toExc key
    | none => .radosObjectNotFound
  | e => e

/-- Modelled from the spec: `ChunkStore._standard_errors` as a wrapper of
a computation result (spec 4.2 and test_chunkstore.test_standard_errors):
on success nothing happens; on failure the exception is translated
through the error map. -/
def standardErrors (em : ErrorMap) (key : PyStr) :
    Except Exc α → Except Exc α
  | .ok a => .ok a
  | .error e => .error (translateExc em key e)

/-- The RADOS object pool: a flat map from object keys to byte buffers. -/
abbrev Pool := List (PyStr × List Nat)

/-- `ioctx.read(key, num_bytes)`: raise the native ObjectNotFound when the
key holds no object, else return up to `num_bytes` leading bytes. -/
def ioctxRead (pool : Pool) (key : PyStr) (num_bytes : Nat) :
    Except Exc (List Nat) :=
  match pool.lookup key with
  | none => .error .radosObjectNotFound
  | some bs => .ok (bs.take num_bytes)

/-- `ioctx.write_full(key, data)`: atomically replace the whole object. -/
def ioctxWriteFull (pool : Pool) (key : PyStr) (bs : List Nat) : Pool :=
  (key, bs) :: pool.filter (fun kv => kv.1 ≠ key)

/-- The environment a RadosChunkStore is constructed against: whether
`cluster.connect()` and `open_ioctx(pool)` fail (and how), and the pool
contents reached on success. -/
structure RadosEnv where
  connectExc : Option RadosExc
  openExc : Option RadosExc
  objects : Pool
deriving DecidableEq, Repr

/-- The state of a constructed `RadosChunkStore`: its error map and the
open ioctx (pool handle). -/
structure RadosStore where
  errorMap : ErrorMap
  ioctx : Pool
deriving DecidableEq, Repr

/-- `RadosChunkStore.__init__`: install the initial error map sending both
TimedOut and ObjectNotFound to StoreUnavailable (a missing config file or
pool also triggers ObjectNotFound at this stage), run connect and
open_ioctx under `_standard_errors`, and only after both succeed remap
ObjectNotFound to ChunkNotFound for subsequent chunk requests. -/
def radosInit (env : RadosEnv) : Except Exc RadosStore :=
  let em : ErrorMap := ⟨some .storeUnavailable, some .storeUnavailable⟩
  let connectAndOpen : Except Exc Pool :=
    match env.connectExc with
    | some e => .error e.toExc
    | none =>
      match env.openExc with
      | some e => .error e.toExc
      | none => .ok env.objects
  match standardErrors em [] connectAndOpen with
  | .error e => .error e
  | .ok pool => .ok ⟨{ em with objectNotFound := some .chunkNotFound }, pool⟩

/-- `numpy.ndarray(shape, dtype, buffer)`: raise the native TypeError when
the buffer is too small, else view the first `prod(shape) * itemsize`
bytes as an array of the given shape and dtype. -/
def npNdarray (shape : List Nat) (dtype : Dtype) (buf : List Nat) :
    Except Exc NdArray :=
  if buf.length < prodShape shape * dtype.itemsize then
    .error (.typeError (str "buffer is too small"))
  else .ok ⟨shape, dtype, buf.take (prodShape shape * dtype.itemsize)⟩

/-- The number of bytes `RadosChunkStore.get` requests from the pool:
`num_bytes = np.prod(shape) * dtype.itemsize`. -/
def radosNumBytes (shape : List Nat) (dtype : Dtype) : Nat :=
  prodShape shape * dtype.itemsize

/-- `RadosChunkStore.get`: derive key and shape through `chunk_metadata`,
read exactly `num_bytes = prod(shape) * itemsize` bytes under the scoped
error translator, and reinterpret them as an array of that shape and
dtype. -/
def radosGet (store : RadosStore) (array_name : PyStr)
    (slices : List SliceElem) (dtype : Dtype) : Except Exc NdArray := do
  let (key, shape) ← chunk_metadata array_name slices none (some dtype)
  let num_bytes := radosNumBytes shape dtype
  let data_str ← standardErrors store.errorMap key (ioctxRead store.ioctx key num_bytes)
  npNdarray shape dtype data_str

/-- `RadosChunkStore.put`: derive key and shape validating the chunk
payload, then write the payload's raw bytes as a full-object overwrite
under the scoped error translator.  Returns the updated store. -/
def radosPut (store : RadosStore) (array_name : PyStr)
    (slices : List SliceElem) (chunk : NdArray) : Except Exc RadosStore := do
  let (key, _shape) ← chunk_metadata array_name slices (some chunk) none
  let data_str := chunk.tobytes
  let pool ← standardErrors store.errorMap key (.ok (ioctxWriteFull store.ioctx key data_str))
  pure { store with ioctx := pool }

/-! ### Observations used to state the claims -/

/-- Whether an exception is the MalformedRequest kind (ValueError). -/
def Exc.isMalformedRequest : Exc → Bool
  | .valueError _ => true
  | _ => false

/-- Whether an exception is the standardized ChunkNotFound kind. -/
def Exc.isChunkNotFound : Exc → Bool
  | .chunkNotFound _ => true
  | _ => false

/-- Whether an exception is the standardized StoreUnavailable kind. -/
def Exc.isStoreUnavailable : Exc → Bool
  | .storeUnavailable _ => true
  | _ => false

/-- Whether an exception is backend native (not one of the standardized
kinds). -/
def Exc.isNative : Exc → Bool
  | .ioError _ => true
  | .typeError _ => true
  | .radosTimedOut => true
  | .radosObjectNotFound => true
  | _ => false

/-- Whether a call outcome raised the MalformedRequest kind. -/
def raisesMalformedRequest : Except Exc α → Bool
  | .error e => e.isMalformedRequest
  | .ok _ => false

/-- Whether a call outcome raised the ChunkNotFound kind. -/
def raisesChunkNotFound : Except Exc α → Bool
  | .error e => e.isChunkNotFound
  | .ok _ => false

/-- Whether a call outcome raised the StoreUnavailable kind. -/
def raisesStoreUnavailable : Except Exc α → Bool
  | .error e => e.isStoreUnavailable
  | .ok _ => false

/-- The chunk stored at a path by the filesystem resulting from a `put`
(none when the put failed or the file is absent). -/
def storedAt (r : Except Exc FS) (p : PyStr) : Option NdArray :=
  match r with
  | .ok fs => fs.files.lookup p
  | .error _ => none

/-- Decode a run of decimal digit characters back to a number, starting
from an accumulator; a proof device inverting `natDigits` and `zeroPad`. -/
def decodeFrom (a : Nat) (cs : List Char) : Nat :=
  cs.foldl (fun x c => 10 * x + (c.toNat - 48)) a

/-! ### Lemmas about the validator -/

theorem exceptBind_error {α β : Type} (e : Exc) (f : α → Except Exc β) :
    (Except.error e >>= f) = Except.error e := rfl

theorem exceptBind_ok {α β : Type} (a : α) (f : α → Except Exc β) :
    (Except.ok a >>= f) = f a := rfl

theorem exceptMap_error {α β : Type} (e : Exc) (f : α → β) :
    (f <$> (Except.error e : Except Exc α)) = Except.error e := rfl

theorem exceptMap_ok {α β : Type} (a : α) (f : α → β) :
    (f <$> (Except.ok a : Except Exc α)) = Except.ok (f a) := rfl

theorem validateElem_error_valueError {e : SliceElem} {x : Exc}
    (h : validateElem e = .error x) : ∃ m, x = .valueError m := by
  cases e with
  | scalar i =>
    simp only [validateElem, Except.error.injEq] at h
    exact ⟨_, h.symm⟩
  | slc s =>
    obtain ⟨st, sp, se⟩ := s
    cases st <;> cases sp <;>
      simp only [validateElem, Except.error.injEq] at h <;>
      try exact ⟨_, h.symm⟩
    cases se with
    | none => simp at h
    | some k =>
      match k with
      | 0 => simp only [Except.error.injEq] at h; exact ⟨_, h.symm⟩
      | 1 => simp at h
      | k + 2 => simp only [Except.error.injEq] at h; exact ⟨_, h.symm⟩

theorem validateElems_error_valueError :
    ∀ {l : List SliceElem} {x : Exc},
      validateElems l = .error x → ∃ m, x = .valueError m := by
  intro l
  induction l with
  | nil => intro x h; simp [validateElems] at h
  | cons e rest ih =>
    intro x h
    simp only [validateElems] at h
    cases he : validateElem e with
    | error a =>
      rw [he] at h
      rw [exceptBind_error] at h
      cases h
      exact validateElem_error_valueError he
    | ok p =>
      rw [he] at h
      rw [exceptBind_ok] at h
      cases hr : validateElems rest with
      | error b =>
        rw [hr] at h
        have h2 : (Except.error b : Except Exc (List (Nat × Nat)))
            = Except.error x := h
        cases h2
        exact ih hr
      | ok ps =>
        rw [hr] at h
        have h2 : (Except.ok (p :: ps) : Except Exc (List (Nat × Nat)))
            = Except.error x := h
        exact Except.noConfusion h2

theorem validateSlices_error_valueError {l : List SliceElem} {x : Exc}
    (h : validateSlices l = .error x) : ∃ m, x = .valueError m := by
  unfold validateSlices at h
  by_cases hl : l.isEmpty
  · simp only [hl, if_true, Except.error.injEq] at h
    exact ⟨_, h.symm⟩
  · simp only [hl, if_false] at h
    exact validateElems_error_valueError h

theorem validateElem_badStep {s : PySlice} {k : Nat}
    (hstep : s.step = some k) (hk : k ≠ 1) :
    ∃ x, validateElem (.slc s) = .error x := by
  obtain ⟨st, sp, se⟩ := s
  cases st <;> cases sp <;> simp only [validateElem]
  · exact ⟨_, rfl⟩
  · exact ⟨_, rfl⟩
  · exact ⟨_, rfl⟩
  · simp only at hstep
    subst hstep
    match k, hk with
    | 0, _ => exact ⟨_, rfl⟩
    | k + 2, _ => exact ⟨_, rfl⟩

theorem validateElems_badStep {l : List SliceElem} {s : PySlice} {k : Nat}
    (hmem : SliceElem.slc s ∈ l) (hstep : s.step = some k) (hk : k ≠ 1) :
    ∃ x, validateElems l = .error x := by
  induction l with
  | nil => cases hmem
  | cons e rest ih =>
    cases hmem with
    | head =>
      obtain ⟨x, hx⟩ := validateElem_badStep hstep hk
      exact ⟨x, by simp only [validateElems, hx, exceptBind_error]⟩
    | tail _ hmem =>
      cases he : validateElem e with
      | error a => exact ⟨a, by simp only [validateElems, he, exceptBind_error]⟩
      | ok p =>
        obtain ⟨x, hx⟩ := ih hmem
        refine ⟨x, ?_⟩
        simp only [validateElems, he, exceptBind_ok, hx]
        rfl

theorem validateSlices_badStep {l : List SliceElem} {s : PySlice} {k : Nat}
    (hmem : SliceElem.slc s ∈ l) (hstep : s.step = some k) (hk : k ≠ 1) :
    ∃ m, validateSlices l = .error (.valueError m) := by
  unfold validateSlices
  by_cases hl : l.isEmpty
  · exact ⟨str "invalid slice specification", by simp [hl]⟩
  · obtain ⟨x, hx⟩ := validateElems_badStep hmem hstep hk
    obtain ⟨m, hm⟩ := validateElems_error_valueError hx
    exact ⟨m, by simp [hl, hx, hm]⟩

/-! ### Lemmas about digit rendering and the chunk key -/

theorem digitChar_toNat {d : Nat} (h : d < 10) : (digitChar d).toNat = 48 + d := by
  interval_cases d <;> decide

theorem digitChar_ne_slash {d : Nat} (h : d < 10) : digitChar d ≠ '/' := by
  interval_cases d <;> decide

theorem natDigitsAux_mem {fuel : Nat} :
    ∀ {n : Nat} {c : Char}, c ∈ natDigitsAux fuel n →
      ∃ d, d < 10 ∧ c = digitChar d := by
  induction fuel with
  | zero => intro n c hc; simp [natDigitsAux] at hc
  | succ fuel ih =>
    intro n c hc
    simp only [natDigitsAux] at hc
    by_cases hn : n < 10
    · rw [if_pos hn] at hc
      simp only [List.mem_singleton] at hc
      exact ⟨n, hn, hc⟩
    · rw [if_neg hn] at hc
      rcases List.mem_append.mp hc with h1 | h2
      · exact ih h1
      · simp only [List.mem_singleton] at h2
        exact ⟨n % 10, Nat.mod_lt n (by decide), h2⟩

theorem decodeFrom_append (a : Nat) (l r : List Char) :
    decodeFrom a (l ++ r) = decodeFrom (decodeFrom a l) r := by
  simp [decodeFrom, List.foldl_append]

theorem decodeFrom_natDigitsAux {fuel : Nat} :
    ∀ {n : Nat}, n < fuel → ∀ a : Nat,
      decodeFrom a (natDigitsAux fuel n)
        = a * 10 ^ (natDigitsAux fuel n).length + n := by
  induction fuel with
  | zero => intro n hn; omega
  | succ fuel ih =>
    intro n hn a
    simp only [natDigitsAux]
    by_cases h10 : n < 10
    · rw [if_pos h10]
      simp [decodeFrom, digitChar_toNat h10]
      omega
    · rw [if_neg h10]
      have hdiv : n / 10 < n := Nat.div_lt_self (by omega) (by decide)
      have hfuel : n / 10 < fuel := by omega
      rw [decodeFrom_append, ih hfuel]
      simp [decodeFrom, digitChar_toNat (Nat.mod_lt n (by decide)),
        List.length_append, pow_succ]
      have := Nat.div_add_mod n 10
      ring_nf
      omega

theorem decodeFrom_zeros (k : Nat) : decodeFrom 0 (List.replicate k '0') = 0 := by
  induction k with
  | zero => rfl
  | succ k ih => simpa [List.replicate_succ, decodeFrom] using ih

theorem decode_zeroPad (w n : Nat) : decodeFrom 0 (zeroPad w n) = n := by
  unfold zeroPad natDigits
  rw [decodeFrom_append, decodeFrom_zeros,
    decodeFrom_natDigitsAux (Nat.lt_succ_self n) 0]
  simp

theorem zeroPad_injective {w a b : Nat} (h : zeroPad w a = zeroPad w b) :
    a = b := by
  have ha := decode_zeroPad w a
  rw [h, decode_zeroPad] at ha
  omega

theorem natDigitsAux_length_le {fuel : Nat} :
    ∀ {n k : Nat}, n < fuel → 1 ≤ k → n < 10 ^ k →
      (natDigitsAux fuel n).length ≤ k := by
  induction fuel with
  | zero => intro n k hn; omega
  | succ fuel ih =>
    intro n k hn hk hnk
    simp only [natDigitsAux]
    by_cases h10 : n < 10
    · rw [if_pos h10]; simpa using hk
    · rw [if_neg h10]
      obtain ⟨j, rfl⟩ : ∃ j, k = j + 1 := ⟨k - 1, by omega⟩
      have hj : 1 ≤ j := by
        by_contra hj
        have : j = 0 := by omega
        subst this
        simp at hnk
        omega
      have hdiv : n / 10 < n := Nat.div_lt_self (by omega) (by decide)
      have hdivk : n / 10 < 10 ^ j := by
        have h2 : n < 10 * 10 ^ j := by
          have := hnk
          rw [pow_succ] at this
          omega
        exact Nat.div_lt_of_lt_mul h2
      have := ih (n := n / 10) (k := j) (by omega) hj hdivk
      simp [List.length_append]
      omega

theorem zeroPad_length {w n : Nat} (h : (natDigits n).length ≤ w) :
    (zeroPad w n).length = w := by
  unfold zeroPad
  unfold natDigits at h ⊢
  simp [List.length_append, List.length_replicate]
  omega

theorem zeroPad_length_of_lt {n : Nat} (h : n < 10 ^ NPAD) :
    (zeroPad NPAD n).length = NPAD :=
  zeroPad_length (natDigitsAux_length_le (Nat.lt_succ_self n) (by decide) h)

theorem joinUnderscore_ne_nil {x : PyStr} {xs : List PyStr} (hx : x ≠ []) :
    joinUnderscore (x :: xs) ≠ [] := by
  cases xs with
  | nil => simpa [joinUnderscore] using hx
  | cons y ys =>
    simp only [joinUnderscore]
    intro h
    rcases List.append_eq_nil.mp h with ⟨_, h2⟩
    cases h2

theorem joinUnderscore_inj {w : Nat} (hw : 0 < w) :
    ∀ {xs ys : List PyStr}, (∀ x ∈ xs, x.length = w) →
      (∀ y ∈ ys, y.length = w) →
      joinUnderscore xs = joinUnderscore ys → xs = ys := by
  intro xs
  induction xs with
  | nil =>
    intro ys _ hys h
    cases ys with
    | nil => rfl
    | cons y ys2 =>
      exfalso
      have hy : y ≠ [] := by
        have := hys y (List.mem_cons_self y ys2)
        intro hnil; rw [hnil] at this; simp at this; omega
      exact joinUnderscore_ne_nil hy h.symm
  | cons x xs2 ih =>
    intro ys hxs hys h
    cases ys with
    | nil =>
      exfalso
      have hx : x ≠ [] := by
        have := hxs x (List.mem_cons_self x xs2)
        intro hnil; rw [hnil] at this; simp at this; omega
      exact joinUnderscore_ne_nil hx h
    | cons y ys2 =>
      have hxw := hxs x (List.mem_cons_self x xs2)
      have hyw := hys y (List.mem_cons_self y ys2)
      cases xs2 with
      | nil =>
        cases ys2 with
        | nil =>
          simp only [joinUnderscore] at h
          rw [h]
        | cons y2 ys3 =>
          exfalso
          simp only [joinUnderscore] at h
          have hlen := congrArg List.length h
          simp [List.length_append, hxw, hyw] at hlen
      | cons x2 xs3 =>
        cases ys2 with
        | nil =>
          exfalso
          simp only [joinUnderscore] at h
          have hlen := congrArg List.length h
          simp [List.length_append, hxw, hyw] at hlen
        | cons y2 ys3 =>
          simp only [joinUnderscore] at h
          obtain ⟨hxy, htail⟩ :=
            List.append_inj h (hxw.trans hyw.symm)
          have htail2 : joinUnderscore (x2 :: xs3) = joinUnderscore (y2 :: ys3) := by
            injection htail
          have := ih
            (fun a ha => hxs a (List.mem_cons_of_mem x ha))
            (fun a ha => hys a (List.mem_cons_of_mem y ha)) htail2
          rw [hxy, this]

theorem indexOfStarts_inj {s1 s2 : List Nat}
    (h1 : ∀ n ∈ s1, n < 10 ^ NPAD) (h2 : ∀ n ∈ s2, n < 10 ^ NPAD)
    (h : indexOfStarts s1 = indexOfStarts s2) : s1 = s2 := by
  have hmap : s1.map (zeroPad NPAD) = s2.map (zeroPad NPAD) :=
    joinUnderscore_inj (w := NPAD) (by decide)
      (fun x hx => by
        obtain ⟨n, hn, rfl⟩ := List.mem_map.mp hx
        exact zeroPad_length_of_lt (h1 n hn))
      (fun x hx => by
        obtain ⟨n, hn, rfl⟩ := List.mem_map.mp hx
        exact zeroPad_length_of_lt (h2 n hn))
      h
  exact List.map_injective_iff.mpr
    (fun a b hab => zeroPad_injective hab) hmap

theorem chunk_name_eq {name : PyStr} {slices : List SliceElem}
    {ps : List (Nat × Nat)} (hv : validateSlices slices = .ok ps) :
    chunk_name name slices
      = .ok (name ++ '/' :: indexOfStarts (ps.map Prod.fst)) := by
  unfold chunk_name
  rw [hv]
  rfl

theorem chunk_name_error {name : PyStr} {slices : List SliceElem} {x : Exc}
    (hv : validateSlices slices = .error x) :
    chunk_name name slices = .error x := by
  unfold chunk_name
  rw [hv]
  rfl

theorem chunk_metadata_error {name : PyStr} {slices : List SliceElem}
    {c : Option NdArray} {d : Option Dtype} {x : Exc}
    (hv : validateSlices slices = .error x) :
    chunk_metadata name slices c d = .error x := by
  unfold chunk_metadata
  rw [hv]
  rfl

theorem chunk_metadata_dtype_eq {name : PyStr} {slices : List SliceElem}
    {ps : List (Nat × Nat)} {dtype : Dtype}
    (hv : validateSlices slices = .ok ps) (hd : dtype.isObject = false) :
    chunk_metadata name slices none (some dtype)
      = .ok (name ++ '/' :: indexOfStarts (ps.map Prod.fst),
             ps.map fun p => p.2 - p.1) := by
  unfold chunk_metadata
  rw [hv]
  simp [exceptBind_ok, hd]

theorem chunk_metadata_chunk_eq {name : PyStr} {slices : List SliceElem}
    {ps : List (Nat × Nat)} {c : NdArray}
    (hv : validateSlices slices = .ok ps)
    (hsh : c.shape = ps.map fun p => p.2 - p.1)
    (hd : c.dtype.isObject = false) :
    chunk_metadata name slices (some c) none
      = .ok (name ++ '/' :: indexOfStarts (ps.map Prod.fst),
             ps.map fun p => p.2 - p.1) := by
  unfold chunk_metadata
  rw [hv, exceptBind_ok]
  dsimp only
  rw [if_neg (by simp [hsh])]
  rw [if_neg (by simp [hd])]
  rfl

theorem chunk_metadata_chunk_mismatch {name : PyStr} {slices : List SliceElem}
    {ps : List (Nat × Nat)} {c : NdArray}
    (hv : validateSlices slices = .ok ps)
    (hsh : c.shape ≠ ps.map fun p => p.2 - p.1) :
    chunk_metadata name slices (some c) none
      = .error (.valueError (str "chunk shape differs from slice specification")) := by
  unfold chunk_metadata
  rw [hv, exceptBind_ok]
  dsimp only
  rw [if_pos hsh]
  rfl

/-! ### Lemmas about paths -/

theorem takeWhile_append_of_all {p : Char → Bool} {l : List Char}
    {x : Char} {r : List Char} (h : ∀ c ∈ l, p c = true) (hx : p x = false) :
    (l ++ x :: r).takeWhile p = l := by
  induction l with
  | nil => simp [List.takeWhile_cons, hx]
  | cons a as ih =>
    have ha := h a (List.mem_cons_self a as)
    simp only [List.cons_append, List.takeWhile_cons, ha, if_true]
    rw [ih (fun c hc => h c (List.mem_cons_of_mem a hc))]

theorem dropWhile_append_of_all {p : Char → Bool} {l : List Char}
    {x : Char} {r : List Char} (h : ∀ c ∈ l, p c = true) (hx : p x = false) :
    (l ++ x :: r).dropWhile p = x :: r := by
  induction l with
  | nil => simp [List.dropWhile_cons, hx]
  | cons a as ih =>
    have ha := h a (List.mem_cons_self a as)
    simp only [List.cons_append, List.dropWhile_cons, ha, if_true]
    exact ih (fun c hc => h c (List.mem_cons_of_mem a hc))

theorem osPathSplit_append {dir base : PyStr}
    (hd : dir ≠ []) (hds : dir.getLast? ≠ some '/')
    (hb : ∀ c ∈ base, c ≠ '/') :
    osPathSplit (dir ++ '/' :: base) = (dir, base) := by
  unfold osPathSplit
  have hrev : (dir ++ '/' :: base).reverse = base.reverse ++ '/' :: dir.reverse := by
    simp [List.reverse_append]
  rw [hrev]
  dsimp only
  have hbrev : ∀ c ∈ base.reverse, (c ≠ '/' : Bool) = true := by
    intro c hc
    simpa using hb c (List.mem_reverse.mp hc)
  have htake : (base.reverse ++ '/' :: dir.reverse).takeWhile (· ≠ '/') = base.reverse :=
    takeWhile_append_of_all hbrev (by simp)
  have hdrop : (base.reverse ++ '/' :: dir.reverse).dropWhile (· ≠ '/') = '/' :: dir.reverse :=
    dropWhile_append_of_all hbrev (by simp)
  rw [htake, hdrop]
  obtain ⟨c, cs, hrw⟩ : ∃ c cs, dir.reverse = c :: cs := by
    cases hr : dir.reverse with
    | nil => exact absurd (by simpa using congrArg List.reverse hr) hd
    | cons c cs => exact ⟨c, cs, rfl⟩
  have hc : c ≠ '/' := by
    intro hcc
    apply hds
    rw [← List.head?_reverse, hrw, hcc]
    rfl
  have hdrop2 : List.dropWhile (· = '/') ('/' :: dir.reverse) = dir.reverse := by
    rw [hrw]
    simp [List.dropWhile_cons, hc]
  rw [hdrop2, hrw]
  simp [← hrw]
  exact hd

theorem zeroPad_no_slash {w n : Nat} : ∀ c ∈ zeroPad w n, c ≠ '/' := by
  intro c hc
  rcases List.mem_append.mp hc with h1 | h2
  · rw [List.eq_of_mem_replicate h1]
    decide
  · obtain ⟨d, hd, rfl⟩ := natDigitsAux_mem h2
    exact digitChar_ne_slash hd

theorem joinUnderscore_no_slash :
    ∀ {xs : List PyStr}, (∀ x ∈ xs, ∀ c ∈ x, c ≠ '/') →
      ∀ c ∈ joinUnderscore xs, c ≠ '/' := by
  intro xs
  induction xs with
  | nil => intro _ c hc; cases hc
  | cons x rest ih =>
    intro h c hc
    cases rest with
    | nil => exact h x (List.mem_cons_self x []) c hc
    | cons y ys =>
      simp only [joinUnderscore] at hc
      rcases List.mem_append.mp hc with h1 | h2
      · exact h x (List.mem_cons_self x (y :: ys)) c h1
      · cases h2 with
        | head => decide
        | tail _ h3 => exact ih (fun a ha => h a (List.mem_cons_of_mem x ha)) c h3

theorem indexOfStarts_no_slash {starts : List Nat} :
    ∀ c ∈ indexOfStarts starts, c ≠ '/' := by
  apply joinUnderscore_no_slash
  intro x hx c hc
  obtain ⟨n, _, rfl⟩ := List.mem_map.mp hx
  exact zeroPad_no_slash c hc

theorem osPathJoin_eq {a b : PyStr} (hb : b.head? ≠ some '/')
    (ha : a ≠ []) (hs : a.getLast? ≠ some '/') :
    osPathJoin a b = a ++ '/' :: b := by
  unfold osPathJoin
  rw [if_neg hb, if_neg ha, if_neg hs]

/-! ### Lemmas about the backend operations -/

theorem lookup_cons_self {α β : Type} [BEq α] [LawfulBEq α]
    (k : α) (v : β) (l : List (α × β)) :
    ((k, v) :: l).lookup k = some v := by
  simp [List.lookup]

theorem isdir_mem {fs : FS} {p : PyStr} (h : isdir fs p = true) : p ∈ fs.dirs :=
  List.mem_of_elem_eq_true h

theorem standardErrors_ok {α : Type} (em : ErrorMap) (key : PyStr) (a : α) :
    standardErrors em key (.ok a) = .ok a := rfl

theorem npyGet_eq {store : NpyStore} {fs : FS} {name : PyStr}
    {slices : List SliceElem} {dtype : Option Dtype} {ps : List (Nat × Nat)}
    (hv : validateSlices slices = .ok ps) :
    npyGet store fs name slices dtype
      = npLoad fs (osPathJoin store.path
          (name ++ '/' :: indexOfStarts (ps.map Prod.fst)) ++ str ".npy") := by
  unfold npyGet
  rw [chunk_name_eq hv]
  rfl

theorem npyGet_error {store : NpyStore} {fs : FS} {name : PyStr}
    {slices : List SliceElem} {dtype : Option Dtype} {x : Exc}
    (hv : validateSlices slices = .error x) :
    npyGet store fs name slices dtype = .error x := by
  unfold npyGet
  rw [chunk_name_error hv]
  rfl

theorem npyPut_eq {store : NpyStore} {fs : FS} {name : PyStr}
    {slices : List SliceElem} {chunk : NdArray} {ps : List (Nat × Nat)}
    (hv : validateSlices slices = .ok ps) :
    npyPut store fs name slices chunk
      = .ok (npSave
          (if isdir fs (osPathSplit (osPathJoin store.path
              (name ++ '/' :: indexOfStarts (ps.map Prod.fst)) ++ str ".npy")).1
           then fs
           else makedirs fs (osPathSplit (osPathJoin store.path
              (name ++ '/' :: indexOfStarts (ps.map Prod.fst)) ++ str ".npy")).1)
          (osPathJoin store.path
            (name ++ '/' :: indexOfStarts (ps.map Prod.fst)) ++ str ".npy")
          chunk) := by
  unfold npyPut
  rw [chunk_name_eq hv]
  rfl

theorem npyPut_error {store : NpyStore} {fs : FS} {name : PyStr}
    {slices : List SliceElem} {chunk : NdArray} {x : Exc}
    (hv : validateSlices slices = .error x) :
    npyPut store fs name slices chunk = .error x := by
  unfold npyPut
  rw [chunk_name_error hv]
  rfl

theorem ioctxRead_found {pool : Pool} {key : PyStr} {bs : List Nat} (n : Nat)
    (h : pool.lookup key = some bs) :
    ioctxRead pool key n = .ok (bs.take n) := by
  unfold ioctxRead
  rw [h]

theorem ioctxRead_missing {pool : Pool} {key : PyStr} (n : Nat)
    (h : pool.lookup key = none) :
    ioctxRead pool key n = .error .radosObjectNotFound := by
  unfold ioctxRead
  rw [h]

theorem radosGet_error {store : RadosStore} {name : PyStr}
    {slices : List SliceElem} {dtype : Dtype} {x : Exc}
    (hv : validateSlices slices = .error x) :
    radosGet store name slices dtype = .error x := by
  unfold radosGet
  rw [chunk_metadata_error hv]
  rfl

theorem radosPut_error {store : RadosStore} {name : PyStr}
    {slices : List SliceElem} {chunk : NdArray} {x : Exc}
    (hv : validateSlices slices = .error x) :
    radosPut store name slices chunk = .error x := by
  unfold radosPut
  rw [chunk_metadata_error hv]
  rfl

theorem radosPut_eq {store : RadosStore} {name : PyStr}
    {slices : List SliceElem} {chunk : NdArray} {ps : List (Nat × Nat)}
    (hv : validateSlices slices = .ok ps)
    (hsh : chunk.shape = ps.map fun p => p.2 - p.1)
    (hd : chunk.dtype.isObject = false) :
    radosPut store name slices chunk
      = .ok ⟨store.errorMap,
             ioctxWriteFull store.ioctx
               (name ++ '/' :: indexOfStarts (ps.map Prod.fst)) chunk.data⟩ := by
  unfold radosPut
  rw [chunk_metadata_chunk_eq hv hsh hd]
  rfl

theorem radosPut_mismatch {store : RadosStore} {name : PyStr}
    {slices : List SliceElem} {chunk : NdArray} {ps : List (Nat × Nat)}
    (hv : validateSlices slices = .ok ps)
    (hsh : chunk.shape ≠ ps.map fun p => p.2 - p.1) :
    radosPut store name slices chunk
      = .error (.valueError (str "chunk shape differs from slice specification")) := by
  unfold radosPut
  rw [chunk_metadata_chunk_mismatch hv hsh]
  rfl

/-! ### The claims -/

/-- C1: the claim says every backend raises ChunkNotFound when `get` hits a
key with no stored chunk.  The object-store backend does (its error map
translates the native ObjectNotFound), but `NpyFileChunkStore.get` calls
`np.load` outside any error translation, so the missing file surfaces as the
backend-native IOError, contradicting the spec and the repository's own
standard store test (`ChunkStoreTestBase.test_put_and_get` expects
ChunkNotFound from every store).  This theorem evaluates both backends at
the failing input. -/
theorem claim_C1_missing_chunk_divergence :
    npyGet ⟨str "/data"⟩ ⟨[str "/data"], []⟩ (str "haha") [slc 0 1] (some .float64)
      = .error (.ioError (str "/data/haha/00000.npy")) ∧
    radosInit ⟨none, none, []⟩
      = .ok ⟨⟨some .storeUnavailable, some .chunkNotFound⟩, []⟩ ∧
    radosGet ⟨⟨some .storeUnavailable, some .chunkNotFound⟩, []⟩
        (str "haha") [slc 0 1] .float64
      = .error (.chunkNotFound (str "haha/00000")) := by
  refine ⟨?_, ?_, ?_⟩ <;> decide

/-- C2: a slice specification containing a range descriptor with step ≠ 1
makes `get` and `put` of both backends raise the MalformedRequest kind
(ValueError), for every store state: the validator runs before any backend
I/O, so the outcome is independent of the filesystem or pool contents and
the failing `put` returns no new state (writes nothing). -/
theorem claim_C2_nonunit_step_rejected (store : NpyStore) (fs : FS)
    (rstore : RadosStore) (name : PyStr) (slices : List SliceElem)
    (chunk : NdArray) (dtype : Dtype) (s : PySlice) (k : Nat)
    (hmem : SliceElem.slc s ∈ slices) (hstep : s.step = some k) (hk : k ≠ 1) :
    raisesMalformedRequest (npyGet store fs name slices (some dtype)) = true ∧
    raisesMalformedRequest (npyPut store fs name slices chunk) = true ∧
    raisesMalformedRequest (radosGet rstore name slices dtype) = true ∧
    raisesMalformedRequest (radosPut rstore name slices chunk) = true := by
  obtain ⟨m, hm⟩ := validateSlices_badStep hmem hstep hk
  refine ⟨?_, ?_, ?_, ?_⟩
  · rw [npyGet_error hm]; rfl
  · rw [npyPut_error hm]; rfl
  · rw [radosGet_error hm]; rfl
  · rw [radosPut_error hm]; rfl

/-- Witness for C2 at a concrete step-2 slice against concrete stores. -/
theorem claim_C2_witness :
    raisesMalformedRequest (npyGet ⟨str "/data"⟩ ⟨[str "/data"], []⟩ (str "x")
      [SliceElem.slc ⟨some 0, some 10, some 2⟩] (some .float64)) = true ∧
    raisesMalformedRequest (npyPut ⟨str "/data"⟩ ⟨[str "/data"], []⟩ (str "x")
      [SliceElem.slc ⟨some 0, some 10, some 2⟩] ⟨[10], .float64, List.replicate 80 0⟩) = true ∧
    raisesMalformedRequest (radosGet ⟨⟨some .storeUnavailable, some .chunkNotFound⟩, []⟩
      (str "x") [SliceElem.slc ⟨some 0, some 10, some 2⟩] .float64) = true ∧
    raisesMalformedRequest (radosPut ⟨⟨some .storeUnavailable, some .chunkNotFound⟩, []⟩
      (str "x") [SliceElem.slc ⟨some 0, some 10, some 2⟩]
      ⟨[10], .float64, List.replicate 80 0⟩) = true :=
  claim_C2_nonunit_step_rejected _ _ _ _ _ _ _ ⟨some 0, some 10, some 2⟩ 2
    (List.mem_cons_self _ _) rfl (by decide)

/-- C3: the claim says every backend's `put` rejects a payload whose shape
disagrees with the slice specification and writes nothing.  The filesystem
backend does not validate the payload (its `put` derives the key without
passing the chunk), so the mismatched payload is accepted and written:
refuted at a concrete input (slice `[0:2)` against a payload of shape `[3]`). -/
theorem claim_C3_counterexample :
    raisesMalformedRequest (npyPut ⟨str "/data"⟩ ⟨[str "/data"], []⟩ (str "x")
      [slc 0 2] ⟨[3], .int64, List.replicate 24 0⟩) = false ∧
    npyPut ⟨str "/data"⟩ ⟨[str "/data"], []⟩ (str "x") [slc 0 2]
        ⟨[3], .int64, List.replicate 24 0⟩
      = .ok ⟨[str "/data/x", [], str "/data", str "/data"],
             [(str "/data/x/00000.npy", ⟨[3], .int64, List.replicate 24 0⟩)]⟩ := by
  refine ⟨?_, ?_⟩ <;> decide

/-- C3 amended: `put` with a payload whose shape differs from the derived
shape raises MalformedRequest and writes nothing in the object-store
backend; the filesystem backend performs no payload validation and stores
the mismatched payload under the derived chunk path. -/
theorem claim_C3_shape_mismatch_amended (store : NpyStore) (fs : FS)
    (rstore : RadosStore) (name : PyStr) (slices : List SliceElem)
    (chunk : NdArray) (ps : List (Nat × Nat))
    (hv : validateSlices slices = .ok ps)
    (hsh : chunk.shape ≠ ps.map fun p => p.2 - p.1) :
    radosPut rstore name slices chunk
      = .error (.valueError (str "chunk shape differs from slice specification")) ∧
    storedAt (npyPut store fs name slices chunk)
      (osPathJoin store.path (name ++ '/' :: indexOfStarts (ps.map Prod.fst))
        ++ str ".npy")
      = some chunk := by
  refine ⟨radosPut_mismatch hv hsh, ?_⟩
  rw [npyPut_eq hv]
  unfold storedAt npSave
  exact lookup_cons_self _ _ _

/-- Witness for the amended C3 at a concrete mismatched payload. -/
theorem claim_C3_amended_witness :
    radosPut ⟨⟨some .storeUnavailable, some .chunkNotFound⟩, []⟩ (str "x")
        [slc 0 2] ⟨[3], .int64, List.replicate 24 0⟩
      = .error (.valueError (str "chunk shape differs from slice specification")) ∧
    storedAt (npyPut ⟨str "/data"⟩ ⟨[str "/data"], []⟩ (str "x") [slc 0 2]
        ⟨[3], .int64, List.replicate 24 0⟩)
      (osPathJoin (str "/data") (str "x" ++ '/' :: indexOfStarts [0]) ++ str ".npy")
      = some ⟨[3], .int64, List.replicate 24 0⟩ :=
  claim_C3_shape_mismatch_amended _ _ _ _ _ _ [(0, 2)] (by decide) (by decide)

/-- C5: chunk-key derivation is a pure deterministic function of the array
name and slice specification (two derivations agree), and for a fixed
array name two validated slice specifications whose start-offset tuples
differ, every offset below the capacity of the five-digit zero padding,
yield distinct keys. -/
theorem claim_C5_key_deterministic_injective (name : PyStr)
    (s1 s2 : List SliceElem) (ps1 ps2 : List (Nat × Nat))
    (k1 k1' k2 : PyStr)
    (hv1 : validateSlices s1 = .ok ps1) (hv2 : validateSlices s2 = .ok ps2)
    (h1 : chunk_name name s1 = .ok k1) (h1' : chunk_name name s1 = .ok k1')
    (h2 : chunk_name name s2 = .ok k2)
    (hb1 : ∀ n ∈ ps1.map Prod.fst, n < 10 ^ NPAD)
    (hb2 : ∀ n ∈ ps2.map Prod.fst, n < 10 ^ NPAD)
    (hne : ps1.map Prod.fst ≠ ps2.map Prod.fst) :
    k1 = k1' ∧ k1 ≠ k2 := by
  rw [chunk_name_eq hv1] at h1 h1'
  rw [chunk_name_eq hv2] at h2
  injection h1 with e1
  injection h1' with e1'
  injection h2 with e2
  constructor
  · rw [← e1, ← e1']
  · intro heq
    rw [← e1, ← e2] at heq
    have hcan := List.append_cancel_left heq
    injection hcan with _ hidx
    exact hne (indexOfStarts_inj hb1 hb2 hidx)

/-- Witness for C5: starts (1) and (512) give the keys x/00001 and
x/00512, equal on repetition and distinct across the two inputs. -/
theorem claim_C5_witness :
    str "x/00001" = str "x/00001" ∧ str "x/00001" ≠ str "x/00512" :=
  claim_C5_key_deterministic_injective (str "x") [slc 1 2] [slc 512 513]
    [(1, 2)] [(512, 513)] _ _ _
    (by decide) (by decide) (by decide) (by decide) (by decide)
    (by decide) (by decide) (by decide)

/-- C9: constructing the filesystem backend fails with the native
not-found IOError exactly when the root path is not an existing directory,
succeeds (recording the path) exactly when it is, and touches nothing on
the filesystem either way. -/
theorem claim_C9_init_existence_check (fs : FS) (path : PyStr) :
    ((npyInit fs path).1 = .error (.ioError path) ↔ isdir fs path = false) ∧
    ((npyInit fs path).1 = .ok ⟨path⟩ ↔ isdir fs path = true) ∧
    (npyInit fs path).2 = fs := by
  unfold npyInit
  by_cases h : isdir fs path <;> simp [h]

/-- C4: for both backends, a `put` of a payload that matches the derived
shape followed by a `get` of the same name and slices (with the payload's
dtype) returns an array equal to the payload: same shape, dtype and
bytes. -/
theorem claim_C4_roundtrip (store : NpyStore) (fs fs2 : FS)
    (rstore rstore2 : RadosStore) (name : PyStr) (slices : List SliceElem)
    (chunk : NdArray) (ps : List (Nat × Nat))
    (hv : validateSlices slices = .ok ps)
    (hsh : chunk.shape = ps.map fun p => p.2 - p.1)
    (hwf : chunk.wf)
    (hd : chunk.dtype.isObject = false)
    (hput : npyPut store fs name slices chunk = .ok fs2)
    (hrput : radosPut rstore name slices chunk = .ok rstore2) :
    npyGet store fs2 name slices (some chunk.dtype) = .ok chunk ∧
    radosGet rstore2 name slices chunk.dtype = .ok chunk := by
  constructor
  · rw [npyPut_eq hv] at hput
    injection hput with hfs2
    rw [npyGet_eq hv, ← hfs2]
    simp [npLoad, npSave, lookup_cons_self]
  · obtain ⟨csh, cdt, cda⟩ := chunk
    unfold NdArray.wf at hwf
    simp only at hwf hsh hd hrput ⊢
    subst hsh
    rw [radosPut_eq hv rfl hd] at hrput
    injection hrput with hst
    rw [← hst]
    unfold radosGet
    rw [chunk_metadata_dtype_eq hv hd, exceptBind_ok]
    dsimp only
    have hlk : (ioctxWriteFull rstore.ioctx
        (name ++ '/' :: indexOfStarts (ps.map Prod.fst))
        (NdArray.mk (ps.map fun p => p.2 - p.1) cdt cda).data).lookup
        (name ++ '/' :: indexOfStarts (ps.map Prod.fst))
        = some (NdArray.mk (ps.map fun p => p.2 - p.1) cdt cda).data :=
      lookup_cons_self _ _ _
    rw [ioctxRead_found _ hlk, standardErrors_ok, exceptBind_ok]
    simp only
    have hnb : cda.length = radosNumBytes (ps.map fun p => p.2 - p.1) cdt := by
      unfold radosNumBytes
      exact hwf
    rw [← hnb, List.take_length]
    unfold npNdarray
    rw [if_neg (by rw [hnb]; unfold radosNumBytes; omega)]
    rw [show prodShape (ps.map fun p => p.2 - p.1) * cdt.itemsize = cda.length from hwf.symm]
    rw [List.take_length]

/-- Witness for C4: a two-element int64 chunk stored under x with slice
3:5 round-trips through both backends. -/
theorem claim_C4_witness :
    npyGet ⟨str "/data"⟩
        ⟨[str "/data/x", [], str "/data", str "/data"],
         [(str "/data/x/00003.npy", ⟨[2], .int64, List.range 16⟩)]⟩
        (str "x") [slc 3 5] (some .int64) = .ok ⟨[2], .int64, List.range 16⟩ ∧
    radosGet ⟨⟨some .storeUnavailable, some .chunkNotFound⟩,
              [(str "x/00003", List.range 16)]⟩
        (str "x") [slc 3 5] .int64 = .ok ⟨[2], .int64, List.range 16⟩ :=
  claim_C4_roundtrip ⟨str "/data"⟩ ⟨[str "/data"], []⟩ _
    ⟨⟨some .storeUnavailable, some .chunkNotFound⟩, []⟩ _ (str "x") [slc 3 5]
    ⟨[2], .int64, List.range 16⟩ [(3, 5)]
    (by decide) (by decide) (by unfold NdArray.wf; decide) (by decide)
    (by decide) (by decide)

/-- C6: any failure of the cluster connection or pool open in
`RadosChunkStore.__init__` (including the native ObjectNotFound raised by
a missing config file or pool) is translated to StoreUnavailable and never
to ChunkNotFound; only a store whose construction succeeded carries the
remapped error entry, under which a `get` for an absent object key raises
ChunkNotFound. -/
theorem claim_C6_construction_vs_request (env1 env2 : RadosEnv)
    (st : RadosStore) (name : PyStr) (slices : List SliceElem)
    (dtype : Dtype) (ps : List (Nat × Nat)) (e : Exc)
    (h1 : radosInit env1 = .error e)
    (h2 : radosInit env2 = .ok st)
    (hv : validateSlices slices = .ok ps)
    (hd : dtype.isObject = false)
    (hmiss : st.ioctx.lookup
      (name ++ '/' :: indexOfStarts (ps.map Prod.fst)) = none) :
    e = .storeUnavailable [] ∧
    e.isChunkNotFound = false ∧
    st.errorMap.objectNotFound = some .chunkNotFound ∧
    radosGet st name slices dtype
      = .error (.chunkNotFound
          (name ++ '/' :: indexOfStarts (ps.map Prod.fst))) := by
  have he : e = .storeUnavailable [] := by
    unfold radosInit at h1
    cases hc : env1.connectExc with
    | some ex =>
      rw [hc] at h1
      cases ex <;>
        simp [standardErrors, translateExc, RadosExc.toExc, StdKind.toExc] at h1 <;>
        exact h1.symm
    | none =>
      rw [hc] at h1
      cases ho : env1.openExc with
      | some ex =>
        rw [ho] at h1
        cases ex <;>
          simp [standardErrors, translateExc, RadosExc.toExc, StdKind.toExc] at h1 <;>
          exact h1.symm
      | none =>
        rw [ho] at h1
        simp [standardErrors] at h1
  have hst : st = ⟨⟨some .storeUnavailable, some .chunkNotFound⟩, env2.objects⟩ := by
    unfold radosInit at h2
    cases hc : env2.connectExc with
    | some ex =>
      rw [hc] at h2
      cases ex <;>
        simp [standardErrors, translateExc, RadosExc.toExc, StdKind.toExc] at h2
    | none =>
      rw [hc] at h2
      cases ho : env2.openExc with
      | some ex =>
        rw [ho] at h2
        cases ex <;>
          simp [standardErrors, translateExc, RadosExc.toExc, StdKind.toExc] at h2
      | none =>
        rw [ho] at h2
        simp [standardErrors] at h2
        exact h2.symm
  refine ⟨he, by rw [he]; rfl, by rw [hst], ?_⟩
  unfold radosGet
  rw [chunk_metadata_dtype_eq hv hd, exceptBind_ok]
  dsimp only
  rw [ioctxRead_missing _ hmiss]
  rw [hst]
  rfl

/-- Witness for C6: a timed-out connection yields StoreUnavailable; after
a successful connection against an empty pool, a `get` for x/00000 yields
ChunkNotFound. -/
theorem claim_C6_witness :
    (Exc.storeUnavailable [] : Exc) = .storeUnavailable [] ∧
    (Exc.storeUnavailable []).isChunkNotFound = false ∧
    (RadosStore.mk ⟨some .storeUnavailable, some .chunkNotFound⟩ []).errorMap.objectNotFound
      = some .chunkNotFound ∧
    radosGet ⟨⟨some .storeUnavailable, some .chunkNotFound⟩, []⟩
        (str "x") [slc 0 1] .float64
      = .error (.chunkNotFound (str "x" ++ '/' :: indexOfStarts [0])) :=
  claim_C6_construction_vs_request ⟨some .timedOut, none, []⟩ ⟨none, none, []⟩
    _ (str "x") [slc 0 1] .float64 [(0, 1)] _
    (by decide) (by decide) (by decide) (by decide) (by decide)

/-- C7: the object-store `get` reads exactly `prod(shape) * itemsize`
bytes for the derived shape (the per-dimension stop - start extents) and
returns them reinterpreted as an array of exactly that shape and the given
dtype. -/
theorem claim_C7_exact_byte_read (rstore : RadosStore) (name : PyStr)
    (slices : List SliceElem) (dtype : Dtype) (ps : List (Nat × Nat))
    (bs : List Nat)
    (hv : validateSlices slices = .ok ps)
    (hd : dtype.isObject = false)
    (hobj : rstore.ioctx.lookup
      (name ++ '/' :: indexOfStarts (ps.map Prod.fst)) = some bs)
    (hlen : radosNumBytes (ps.map fun p => p.2 - p.1) dtype ≤ bs.length) :
    radosGet rstore name slices dtype
      = .ok ⟨ps.map fun p => p.2 - p.1, dtype,
             bs.take (radosNumBytes (ps.map fun p => p.2 - p.1) dtype)⟩ ∧
    (bs.take (radosNumBytes (ps.map fun p => p.2 - p.1) dtype)).length
      = prodShape (ps.map fun p => p.2 - p.1) * dtype.itemsize := by
  have htk : (bs.take (radosNumBytes (ps.map fun p => p.2 - p.1) dtype)).length
      = radosNumBytes (ps.map fun p => p.2 - p.1) dtype := by
    rw [List.length_take]
    omega
  constructor
  · unfold radosGet
    rw [chunk_metadata_dtype_eq hv hd, exceptBind_ok]
    dsimp only
    rw [ioctxRead_found _ hobj, standardErrors_ok, exceptBind_ok]
    unfold npNdarray
    rw [if_neg (by rw [htk]; unfold radosNumBytes; omega)]
    rw [List.take_take]
    simp [radosNumBytes]
  · rw [htk]
    rfl

/-- Witness for C7: reading two int64 elements from a pool object of 16
bytes returns all 16 bytes shaped (2). -/
theorem claim_C7_witness :
    radosGet ⟨⟨some .storeUnavailable, some .chunkNotFound⟩,
              [(str "y/00003", List.range 16)]⟩
        (str "y") [slc 3 5] .int64
      = .ok ⟨[2], .int64, (List.range 16).take (radosNumBytes [2] .int64)⟩ ∧
    ((List.range 16).take (radosNumBytes [2] .int64)).length
      = prodShape [2] * Dtype.itemsize .int64 :=
  claim_C7_exact_byte_read _ (str "y") [slc 3 5] .int64 [(3, 5)] (List.range 16)
    (by decide) (by decide) (by decide) (by decide)

/-- C8: the claim says the filesystem backend maps every chunk to
`<store_root>/<array_name>/<index>.npy`.  It is refuted for an array name
beginning with the path separator: `os.path.join` discards everything
before an absolute component, so the chunk of array "/x" under store root
/data is written to /x/00000.npy, not to a path below /data. -/
theorem claim_C8_counterexample :
    osPathJoin (str "/data") (str "/x" ++ '/' :: indexOfStarts [0]) ++ str ".npy"
      = str "/x/00000.npy" ∧
    str "/x/00000.npy"
      ≠ str "/data" ++ '/' :: str "/x"
          ++ '/' :: (indexOfStarts [0] ++ str ".npy") ∧
    storedAt (npyPut ⟨str "/data"⟩ ⟨[str "/data"], []⟩ (str "/x") [slc 0 1]
        ⟨[1], .uint8, [7]⟩) (str "/x/00000.npy")
      = some ⟨[1], .uint8, [7]⟩ := by
  refine ⟨?_, ?_, ?_⟩ <;> decide

/-- C8 amended: for array names that do not begin with the path separator
(an absolute name makes `os.path.join` discard the store root), the
filesystem backend stores every chunk at
`<store_root>/<array_name>/<index>.npy` (the chunk key joined to the root
with the fixed extension), and `put` creates the missing containing
directory (with its intermediate directories) before writing the file. -/
theorem claim_C8_filesystem_layout (store : NpyStore) (fs fs2 : FS)
    (name : PyStr) (slices : List SliceElem) (chunk : NdArray)
    (ps : List (Nat × Nat))
    (hv : validateSlices slices = .ok ps)
    (hr : store.path ≠ []) (hrs : store.path.getLast? ≠ some '/')
    (hn : name ≠ []) (hn0 : name.head? ≠ some '/')
    (hns : name.getLast? ≠ some '/')
    (hput : npyPut store fs name slices chunk = .ok fs2) :
    osPathJoin store.path (name ++ '/' :: indexOfStarts (ps.map Prod.fst))
        ++ str ".npy"
      = store.path ++ '/' :: name
          ++ '/' :: (indexOfStarts (ps.map Prod.fst) ++ str ".npy") ∧
    fs2.files.lookup (store.path ++ '/' :: name
        ++ '/' :: (indexOfStarts (ps.map Prod.fst) ++ str ".npy"))
      = some chunk ∧
    (store.path ++ '/' :: name) ∈ fs2.dirs := by
  obtain ⟨c0, cs0, rfl⟩ : ∃ c cs, name = c :: cs := by
    cases name with
    | nil => exact absurd rfl hn
    | cons c cs => exact ⟨c, cs, rfl⟩
  have hc0 : c0 ≠ '/' := by
    intro h
    exact hn0 (by rw [h]; rfl)
  have hfile : osPathJoin store.path
      (c0 :: cs0 ++ '/' :: indexOfStarts (ps.map Prod.fst)) ++ str ".npy"
      = (store.path ++ '/' :: (c0 :: cs0))
          ++ '/' :: (indexOfStarts (ps.map Prod.fst) ++ str ".npy") := by
    rw [osPathJoin_eq (by simpa using hc0) hr hrs]
    simp
  have hdirne : (store.path ++ '/' :: (c0 :: cs0) : PyStr) ≠ [] := by simp
  have hdirlast : (store.path ++ '/' :: (c0 :: cs0) : PyStr).getLast? ≠ some '/' := by
    rw [List.getLast?_append_of_ne_nil _ (by simp)]
    rw [List.getLast?_cons_cons]
    exact hns
  have hbase : ∀ c ∈ indexOfStarts (ps.map Prod.fst) ++ str ".npy", c ≠ '/' := by
    intro c hc
    rcases List.mem_append.mp hc with h1 | h2
    · exact indexOfStarts_no_slash c h1
    · have hext : ∀ c ∈ str ".npy", c ≠ '/' := by decide
      exact hext c h2
  have hsplit : (osPathSplit (osPathJoin store.path
      (c0 :: cs0 ++ '/' :: indexOfStarts (ps.map Prod.fst)) ++ str ".npy")).1
      = store.path ++ '/' :: (c0 :: cs0) := by
    rw [hfile, osPathSplit_append hdirne hdirlast hbase]
  rw [npyPut_eq hv] at hput
  injection hput with hfs2
  have hfile2 : osPathJoin store.path
      (c0 :: cs0 ++ '/' :: indexOfStarts (ps.map Prod.fst)) ++ str ".npy"
      = store.path ++ '/' :: (c0 :: cs0)
          ++ '/' :: (indexOfStarts (ps.map Prod.fst) ++ str ".npy") := by
    rw [hfile]
  refine ⟨hfile2, ?_, ?_⟩
  · rw [← hfs2]
    unfold npSave
    rw [← hfile2]
    exact lookup_cons_self _ _ _
  · rw [← hfs2]
    unfold npSave
    by_cases hdir : isdir fs (osPathSplit (osPathJoin store.path
        (c0 :: cs0 ++ '/' :: indexOfStarts (ps.map Prod.fst)) ++ str ".npy")).1
    · rw [if_pos hdir]
      rw [hsplit] at hdir
      exact isdir_mem hdir
    · rw [if_neg hdir]
      unfold makedirs
      rw [hsplit]
      exact List.mem_cons_self _ _

/-- Witness for the amended C8 at a concrete store, array name and
slice. -/
theorem claim_C8_witness :
    osPathJoin (str "/data") (str "x" ++ '/' :: indexOfStarts [3]) ++ str ".npy"
      = str "/data" ++ '/' :: str "x"
          ++ '/' :: (indexOfStarts [3] ++ str ".npy") ∧
    (FS.mk [str "/data/x", [], str "/data", str "/data"]
        [(str "/data/x/00003.npy", ⟨[2], .int64, List.range 16⟩)]).files.lookup
      (str "/data" ++ '/' :: str "x" ++ '/' :: (indexOfStarts [3] ++ str ".npy"))
      = some ⟨[2], .int64, List.range 16⟩ ∧
    (str "/data" ++ '/' :: str "x")
      ∈ (FS.mk [str "/data/x", [], str "/data", str "/data"]
          [(str "/data/x/00003.npy", ⟨[2], .int64, List.range 16⟩)]).dirs :=
  claim_C8_filesystem_layout ⟨str "/data"⟩ ⟨[str "/data"], []⟩ _ (str "x")
    [slc 3 5] ⟨[2], .int64, List.range 16⟩ [(3, 5)]
    (by decide) (by decide) (by decide) (by decide) (by decide) (by decide)
    (by decide)

/-- C10: the claim says the filesystem backend's methods never raise any
standardized kind.  It is refuted: key derivation validates the slice
specification, so a step-2 slice makes `NpyFileChunkStore.get` raise the
MalformedRequest kind (ValueError) like every other store. -/
theorem claim_C10_counterexample :
    npyGet ⟨str "/data"⟩ ⟨[str "/data"], []⟩ (str "x")
        [SliceElem.slc ⟨some 0, some 10, some 2⟩] none
      = .error (.valueError (str "slice step must be 1")) := by decide

/-- C10 amended: `NpyFileChunkStore.get` and `put` never raise
ChunkNotFound or StoreUnavailable (the constructor installs no error map
and the methods never use the scoped error translator): the only
standardized kind they can raise is MalformedRequest, coming from slice
validation during key derivation; every backend failure, in particular a
missing file on `get`, propagates as the backend-native IOError. -/
theorem claim_C10_native_errors_amended (store : NpyStore) (fs : FS)
    (name name2 : PyStr) (slices slices2 : List SliceElem)
    (dtype : Option Dtype) (chunk : NdArray) (cname : PyStr) (e e2 : Exc)
    (hk : chunk_name name slices = .ok cname)
    (hm : fs.files.lookup (osPathJoin store.path cname ++ str ".npy") = none)
    (hg : npyGet store fs name slices dtype = .error e)
    (hp : npyPut store fs name2 slices2 chunk = .error e2) :
    e = .ioError (osPathJoin store.path cname ++ str ".npy") ∧
    e.isChunkNotFound = false ∧
    e.isStoreUnavailable = false ∧
    e.isNative = true ∧
    e2.isMalformedRequest = true ∧
    e2.isChunkNotFound = false ∧
    e2.isStoreUnavailable = false := by
  obtain ⟨ps, hv⟩ : ∃ ps, validateSlices slices = .ok ps := by
    cases hvv : validateSlices slices with
    | ok ps => exact ⟨ps, rfl⟩
    | error x =>
      rw [chunk_name_error hvv] at hk
      exact Except.noConfusion hk
  rw [chunk_name_eq hv] at hk
  injection hk with hkey
  rw [npyGet_eq hv] at hg
  rw [hkey] at hg
  unfold npLoad at hg
  rw [hm] at hg
  injection hg with hge
  have he : e = .ioError (osPathJoin store.path cname ++ str ".npy") := hge.symm
  have he2 : ∃ m2, e2 = .valueError m2 := by
    cases hvv2 : validateSlices slices2 with
    | ok ps2 =>
      rw [npyPut_eq hvv2] at hp
      exact Except.noConfusion hp
    | error x =>
      rw [npyPut_error hvv2] at hp
      injection hp with hpe
      obtain ⟨m2, hm2⟩ := validateSlices_error_valueError hvv2
      exact ⟨m2, by rw [← hpe, hm2]⟩
  obtain ⟨m2, hm2⟩ := he2
  subst he
  subst hm2
  exact ⟨rfl, rfl, rfl, rfl, rfl, rfl, rfl⟩

/-- Witness for the amended C10: a get for an absent chunk surfaces the
native IOError; a put with a step-2 slice fails with the MalformedRequest
kind. -/
theorem claim_C10_amended_witness :
    (Exc.ioError (str "/data/haha/00000.npy"))
      = .ioError (osPathJoin (str "/data") (str "haha/00000") ++ str ".npy") ∧
    (Exc.ioError (str "/data/haha/00000.npy")).isChunkNotFound = false ∧
    (Exc.ioError (str "/data/haha/00000.npy")).isStoreUnavailable = false ∧
    (Exc.ioError (str "/data/haha/00000.npy")).isNative = true ∧
    (Exc.valueError (str "slice step must be 1")).isMalformedRequest = true ∧
    (Exc.valueError (str "slice step must be 1")).isChunkNotFound = false ∧
    (Exc.valueError (str "slice step must be 1")).isStoreUnavailable = false :=
  claim_C10_native_errors_amended ⟨str "/data"⟩ ⟨[str "/data"], []⟩
    (str "haha") (str "x") [slc 0 1] [SliceElem.slc ⟨some 0, some 10, some 2⟩]
    (some .float64) ⟨[10], .float64, List.replicate 80 0⟩ (str "haha/00000") _ _
    (by decide) (by decide) (by decide) (by decide)

end Katdal
